import Mathlib

/-!
Shallow embedding of src/news_bot.py (class NewsBot).

The pure logic of the bot is embedded directly: link normalization from
fetch_articles, content assembly from parse_article_content, the message
formatter format_message, and the per-cycle orchestration of NewsBot.run.
Network transport and HTML parsing are abstracted as oracle parameters:
a page oracle maps an article url to the parse outcome observed for it,
and a send oracle maps a message text to the boolean result of
send_telegram_message. The sent-articles file is modelled as the list of
links recorded by save_sent_article, read back by load_sent_articles.
-/

/-- CONFIG MAX_MESSAGE_LENGTH, news_bot.py line 32. -/
def MAX_MESSAGE_LENGTH : Nat := 4096

/-- CONFIG RBC_URL, news_bot.py line 25. -/
def RBC_URL : String := "https://www.rbc.ru/"

/-- One homepage article dict with keys title and link, news_bot.py line 68. -/
structure Article where
  title : String
  link : String
deriving DecidableEq

/-- One anchor element matched on the homepage: its visible text and its
href attribute, news_bot.py lines 63 to 65. -/
structure Anchor where
  text : String
  href : String
deriving DecidableEq

/-- The whitespace set of Python str.strip: ASCII 09 to 0D and 20, the file
and group separators 1C to 1F, and the Unicode space code points. -/
def pySpace (c : Char) : Bool :=
  (0x09 ≤ c.toNat && c.toNat ≤ 0x0d) || c.toNat = 0x20 ||
    (0x1c ≤ c.toNat && c.toNat ≤ 0x1f) || c.toNat = 0x85 || c.toNat = 0xa0 ||
    c.toNat = 0x1680 || (0x2000 ≤ c.toNat && c.toNat ≤ 0x200a) ||
    c.toNat = 0x2028 || c.toNat = 0x2029 || c.toNat = 0x202f ||
    c.toNat = 0x205f || c.toNat = 0x3000

/-- Python str.strip on a character list: drops pySpace characters from both
ends. -/
def pyStrip (l : List Char) : List Char :=
  ((l.dropWhile pySpace).reverse.dropWhile pySpace).reverse

/-- Python str.strip applied to the anchor text, news_bot.py line 64. -/
def stripText (s : String) : String :=
  String.mk (pyStrip s.data)

/-- Python str.lstrip with a slash argument, news_bot.py line 67: drops every
leading slash character. -/
def lstripSlashes (s : String) : String :=
  String.mk (s.data.dropWhile fun c => c == '/')

/-- Python link.startswith applied to the scheme text http,
news_bot.py line 66. -/
def startswith_http (s : String) : Bool :=
  match s.data with
  | 'h' :: 't' :: 't' :: 'p' :: _ => true
  | _ => false

/-- Link normalization of fetch_articles, news_bot.py lines 66 to 67: a href
that does not begin with http is resolved against RBC_URL after dropping its
leading slashes; any other href is kept unchanged. -/
def normalizeLink (href : String) : String :=
  if startswith_http href then href else RBC_URL ++ lstripSlashes href

/-- The article list built by fetch_articles from the matched anchors,
news_bot.py lines 63 to 68. -/
def fetch_articles (anchors : List Anchor) : List Article :=
  anchors.map fun it => { title := stripText it.text, link := normalizeLink it.href }

/-- Outcome of fetching and souping one article url in parse_article_content:
failure is any exception caught at news_bot.py line 99; noContainer means
neither selector at line 85 matched; container carries the stripped texts of
the paragraph and heading elements surviving the decompose step, in order. -/
inductive ParseOutcome where
  | failure : ParseOutcome
  | noContainer : ParseOutcome
  | container : List String → ParseOutcome
deriving DecidableEq

/-- parse_article_content, news_bot.py lines 76 to 101: empty string on any
exception, a fixed placeholder when no content container matched, otherwise
the nonempty element texts joined with a blank line. -/
def parse_article_content : ParseOutcome → String
  | ParseOutcome.failure => ""
  | ParseOutcome.noContainer => "Текст статьи не найден"
  | ParseOutcome.container texts =>
      String.intercalate "\n\n" (texts.filter fun t => !(t == ""))

/-- The literal placeholder inside message_template, news_bot.py line 121. -/
def contentPlaceholder : String := "{content}"

/-- The part of message_template before the content placeholder,
news_bot.py line 120. -/
def msgHead (title : String) : String := "<b>📰 " ++ title ++ "</b>\n\n"

/-- The part of message_template after the content placeholder,
news_bot.py line 122. -/
def msgFoot (link : String) : String := "\n\n<a href=\x27" ++ link ++ "\x27>🔗 Источник</a>"

/-- message_template, news_bot.py lines 119 to 123: title and link are
interpolated eagerly, the content placeholder stays literal. -/
def message_template (title link : String) : String :=
  msgHead title ++ contentPlaceholder ++ msgFoot link

/-- max_content_length, news_bot.py line 125. Int valued because the Python
expression can be zero or negative for long titles or links. -/
def maxContentLength (title link : String) : Int :=
  (MAX_MESSAGE_LENGTH : Int) - (message_template title link).length +
    (contentPlaceholder.length : Int)

/-- Fuel driven splitting of a character list into consecutive slices of
width m, the list comprehension at news_bot.py line 126 for positive m.
The fuel is always instantiated with the list length, which suffices
whenever m is positive. -/
def chunkListAux : Nat → Nat → List Char → List (List Char)
  | 0, _, _ => []
  | _ + 1, _, [] => []
  | fuel + 1, m, c :: cs => (c :: cs).take m :: chunkListAux fuel m ((c :: cs).drop m)

/-- Consecutive slices of width m of a character list, empty for an empty
list, news_bot.py line 126. -/
def chunkList (m : Nat) (l : List Char) : List (List Char) :=
  chunkListAux l.length m l

/-- Scanner for the text after an opening brace in str.format: collects the
field name up to the closing brace and returns it with the remainder; none
when the closing brace is missing or another opening brace occurs first
(both ValueError in Python). -/
def splitField : List Char → Option (List Char × List Char)
  | [] => none
  | c :: rest =>
    if c = '\x7d' then some ([], rest)
    else if c = '\x7b' then none
    else (splitField rest).map fun r => (c :: r.1, r.2)

/-- Python str.format applied to a template with the single keyword argument
content bound to part, as in message_template.format at news_bot.py line
128. Doubled braces are literals; the replacement field named content is
substituted by part at every occurrence, including occurrences injected
into the template through the title or link; any other field, or a stray
single brace, is an error in Python (KeyError, IndexError or ValueError,
uncaught in the source) and maps to none, as do fields carrying conversions
or format specifications, which are outside this model. The fuel is
instantiated with the template length, which always suffices. -/
def pyFormatAux : Nat → List Char → List Char → Option (List Char)
  | _, [], _ => some []
  | 0, _ :: _, _ => none
  | fuel + 1, c :: rest, part =>
    if c = '\x7b' then
      match rest with
      | [] => none
      | d :: rest2 =>
        if d = '\x7b' then
          (pyFormatAux fuel rest2 part).map fun r => '\x7b' :: r
        else
          match splitField rest with
          | none => none
          | some fr =>
            if fr.1 = "content".data then
              (pyFormatAux fuel fr.2 part).map fun r => part ++ r
            else none
    else if c = '\x7d' then
      match rest with
      | [] => none
      | d :: rest2 =>
        if d = '\x7d' then
          (pyFormatAux fuel rest2 part).map fun r => '\x7d' :: r
        else none
    else
      (pyFormatAux fuel rest part).map fun r => c :: r

/-- Python template.format with content bound to part. -/
def pyFormat (tmpl part : List Char) : Option (List Char) :=
  pyFormatAux tmpl.length tmpl part

/-- Renders every content slice through str.format on the shared template,
the list comprehension at news_bot.py line 128; a formatting error on any
slice aborts the whole call. -/
def renderAll (tmpl : List Char) : List (List Char) → Option (List String)
  | [] => some []
  | part :: parts =>
    match pyFormat tmpl part with
    | none => none
    | some msg =>
      match renderAll tmpl parts with
      | none => none
      | some msgs => some (String.mk msg :: msgs)

/-- format_message, news_bot.py lines 118 to 128. A zero slice capacity
makes the Python list comprehension raise ValueError because the range step
is zero: modelled as none. A negative capacity makes the range empty, so
Python returns the empty list, including for nonempty content and without
ever invoking str.format. Otherwise each slice is rendered by substituting
it through str.format on message_template. -/
def format_message (title content link : String) : Option (List String) :=
  if maxContentLength title link < 0 then
    some []
  else if maxContentLength title link = 0 then
    none
  else
    renderAll (message_template title link).data
      (chunkList (maxContentLength title link).toNat content.data)

/-- Holds when a character list contains no brace character, so that
str.format treats it as literal text. -/
def braceFree (l : List Char) : Bool :=
  l.all fun c => !(c == '\x7b') && !(c == '\x7d')

/-- Removes the shared decoration from one rendered message: drops the
rendered head and keeps everything before the rendered foot. -/
def stripDecoration (title link : String) (msg : String) : String :=
  String.mk ((msg.data.drop (msgHead title).length).take
    (msg.data.length - (msgHead title).length - (msgFoot link).length))

/-- Concatenation of a list of strings in order. -/
def concatStrings (ss : List String) : String := ss.foldr (fun a b => a ++ b) ""

/-- The body of the per-article loop of NewsBot.run, news_bot.py lines 141
to 152, for one article. The state is the sent-articles file, as the list
of links recorded by save_sent_article. Empty extracted content skips the
article and leaves the file unchanged. Otherwise every formatted chunk is
passed to the send oracle (the boolean results, used by the source only
for logging and pacing, are returned as a log), and afterwards the article
link is appended to the file unconditionally. A formatter error (none)
propagates as none, matching the uncaught ValueError. -/
def processArticle (page : String → ParseOutcome) (send : String → Bool)
    (file : List String) (a : Article) : Option (List String × List Bool) :=
  if parse_article_content (page a.link) = "" then
    some (file, [])
  else
    match format_message a.title (parse_article_content (page a.link)) a.link with
    | none => none
    | some msgs => some (file ++ [a.link], msgs.map send)

/-- The per-article loop of NewsBot.run over a list of articles, threading
the sent-articles file and concatenating the delivery logs. -/
def processArticles (page : String → ParseOutcome) (send : String → Bool) :
    List Article → List String → Option (List String × List Bool)
  | [], file => some (file, [])
  | a :: rest, file =>
    match processArticle page send file a with
    | none => none
    | some r =>
      match processArticles page send rest r.1 with
      | none => none
      | some r2 => some (r2.1, r.2 ++ r2.2)

/-- The new_articles filter of NewsBot.run, news_bot.py lines 135 to 139:
keeps the fetched articles whose link is not in the sent set loaded at
cycle start. -/
def newArticles (fetched : List Article) (sentSet : List String) : List Article :=
  fetched.filter fun a => !(decide (a.link ∈ sentSet))

/-- The links passed to parse_article_content during one cycle, in order:
exactly the links of the articles surviving the new_articles filter
(an overapproximation only when an uncaught formatter error aborts the
cycle early, in which case a suffix of these calls never happens). -/
def cycleExtracted (fetched : List Article) (sentSet : List String) : List String :=
  (newArticles fetched sentSet).map fun a => a.link

/-- A title of length 4057: together with a link of length 1 the rendered
decoration is exactly MAX_MESSAGE_LENGTH characters, a concrete input with
zero slice capacity. -/
def titleLen4057 : String := String.mk (List.replicate 4057 'a')

/-- A title of length 4058: together with a link of length 1 the rendered
decoration exceeds MAX_MESSAGE_LENGTH, a concrete input with negative slice
capacity. -/
def titleLen4058 : String := String.mk (List.replicate 4058 'a')

/-- Concrete content of length 10000. -/
def contentLen10000 : String := String.mk (List.replicate 10000 'b')

/-- Concrete content of length 2029: with a title equal to the content
placeholder itself, str.format substitutes the slice twice and the rendered
message exceeds the platform limit by one character. -/
def contentLen2029 : String := String.mk (List.replicate 2029 'c')

/-- The chunk list produced for contentLen10000 with a short title and
link: slice capacity 4056, so three chunks. -/
def msgsOf10000 : List String :=
  (chunkList 4056 contentLen10000.data).map
    fun part => msgHead "T" ++ String.mk part ++ msgFoot "L"

/-! ### Helper lemmas on strings and chunking -/

theorem data_append (a b : String) : (a ++ b).data = a.data ++ b.data := by
  cases a
  cases b
  rfl

theorem length_mk (l : List Char) : (String.mk l).length = l.length := rfl

theorem length_append_str (a b : String) : (a ++ b).length = a.length + b.length := by
  show (a ++ b).data.length = a.data.length + b.data.length
  rw [data_append, List.length_append]

theorem msgHead_length (t : String) : (msgHead t).length = t.length + 11 := by
  show ("<b>📰 " ++ t ++ "</b>\n\n").length = t.length + 11
  rw [length_append_str, length_append_str]
  show 5 + t.length + 6 = t.length + 11
  omega

theorem msgFoot_length (l : String) : (msgFoot l).length = l.length + 27 := by
  show ("\n\n<a href=\x27" ++ l ++ "\x27>🔗 Источник</a>").length = l.length + 27
  rw [length_append_str, length_append_str]
  show 11 + l.length + 16 = l.length + 27
  omega

theorem maxContentLength_eq (t l : String) :
    maxContentLength t l =
      (MAX_MESSAGE_LENGTH : Int) - (msgHead t).length - (msgFoot l).length := by
  unfold maxContentLength message_template
  rw [length_append_str, length_append_str]
  show (MAX_MESSAGE_LENGTH : Int) - ((msgHead t).length + 9 + (msgFoot l).length) + 9 = _
  omega

theorem format_message_of_neg (t c l : String) (h : maxContentLength t l < 0) :
    format_message t c l = some [] := by
  unfold format_message
  rw [if_pos h]

theorem format_message_of_zero (t c l : String) (h : maxContentLength t l = 0) :
    format_message t c l = none := by
  unfold format_message
  rw [if_neg (by omega), if_pos h]

theorem format_message_of_pos (t c l : String) (h : 0 < maxContentLength t l) :
    format_message t c l =
      renderAll (message_template t l).data
        (chunkList (maxContentLength t l).toNat c.data) := by
  unfold format_message
  rw [if_neg (by omega), if_neg (by omega)]

theorem chunkListAux_cons (fuel m : Nat) (c : Char) (cs : List Char) :
    chunkListAux (fuel + 1) m (c :: cs) =
      (c :: cs).take m :: chunkListAux fuel m ((c :: cs).drop m) := rfl

theorem chunkListAux_mem_length (m : Nat) :
    ∀ fuel l part, part ∈ chunkListAux fuel m l → part.length ≤ m := by
  intro fuel
  induction fuel with
  | zero =>
    intro l part h
    simp [chunkListAux] at h
  | succ fuel ih =>
    intro l part h
    cases l with
    | nil => simp [chunkListAux] at h
    | cons c cs =>
      rw [chunkListAux_cons] at h
      rcases List.mem_cons.mp h with h1 | h1
      · subst h1
        rw [List.length_take]
        exact min_le_left _ _
      · exact ih _ _ h1

theorem concatStrings_cons (s : String) (ss : List String) :
    concatStrings (s :: ss) = s ++ concatStrings ss := rfl

theorem mk_append (a b : List Char) : String.mk a ++ String.mk b = String.mk (a ++ b) := rfl

theorem concat_mk_chunkListAux (m : Nat) (hm : 0 < m) :
    ∀ fuel l, l.length ≤ fuel →
      concatStrings ((chunkListAux fuel m l).map String.mk) = String.mk l := by
  intro fuel
  induction fuel with
  | zero =>
    intro l hl
    have hnil : l = [] := List.length_eq_zero.mp (Nat.le_zero.mp hl)
    subst hnil
    rfl
  | succ fuel ih =>
    intro l hl
    cases l with
    | nil => rfl
    | cons c cs =>
      rw [chunkListAux_cons, List.map_cons, concatStrings_cons]
      have hlen : ((c :: cs).drop m).length ≤ fuel := by
        rw [List.length_drop]
        simp only [List.length_cons] at hl ⊢
        omega
      rw [ih _ hlen, mk_append, List.take_append_drop]

theorem chunkListAux_ne_nil (fuel m : Nat) (l : List Char)
    (hf : 0 < fuel) (hl : l ≠ []) : chunkListAux fuel m l ≠ [] := by
  cases fuel with
  | zero => omega
  | succ fuel =>
    cases l with
    | nil => exact absurd rfl hl
    | cons c cs =>
      rw [chunkListAux_cons]
      exact List.cons_ne_nil _ _

theorem two_le_chunkList_length (m : Nat) (l : List Char)
    (hm : 0 < m) (hlt : m < l.length) : 2 ≤ (chunkList m l).length := by
  unfold chunkList
  cases l with
  | nil => simp at hlt
  | cons c cs =>
    simp only [List.length_cons] at hlt
    rw [List.length_cons, chunkListAux_cons]
    rw [List.length_cons]
    have h1 : chunkListAux cs.length m ((c :: cs).drop m) ≠ [] := by
      apply chunkListAux_ne_nil
      · omega
      · intro hnil
        have := congrArg List.length hnil
        rw [List.length_drop] at this
        simp only [List.length_cons, List.length_nil] at this
        omega
    have h2 : 0 < (chunkListAux cs.length m ((c :: cs).drop m)).length :=
      List.length_pos.mpr h1
    omega

theorem stripDecoration_render (t l : String) (part : List Char) :
    stripDecoration t l (msgHead t ++ String.mk part ++ msgFoot l) = String.mk part := by
  unfold stripDecoration
  rw [data_append, data_append]
  show String.mk ((((msgHead t).data ++ part) ++ (msgFoot l).data).drop (msgHead t).length
      |>.take _) = String.mk part
  have hd : (((msgHead t).data ++ part) ++ (msgFoot l).data).drop (msgHead t).length
      = part ++ (msgFoot l).data := by
    rw [List.append_assoc]
    exact List.drop_left _ _
  have hlen : (((msgHead t).data ++ part) ++ (msgFoot l).data).length -
      (msgHead t).length - (msgFoot l).length = part.length := by
    rw [List.length_append, List.length_append]
    show (msgHead t).data.length + part.length + (msgFoot l).data.length -
      (msgHead t).data.length - (msgFoot l).data.length = part.length
    omega
  rw [hd, hlen, List.take_left]

theorem braceFree_cons (c : Char) (cs : List Char) :
    braceFree (c :: cs) = true ↔
      (¬ c = '\x7b' ∧ ¬ c = '\x7d') ∧ braceFree cs = true := by
  simp [braceFree]

theorem braceFree_append (a b : List Char) :
    braceFree (a ++ b) = true ↔ braceFree a = true ∧ braceFree b = true := by
  simp [braceFree]

theorem splitField_content (rest : List Char) :
    splitField ("content".data ++ ('\x7d' :: rest)) = some ("content".data, rest) := rfl

theorem pyFormatAux_clean (part : List Char) :
    ∀ (l : List Char) (fuel : Nat), braceFree l = true → l.length ≤ fuel →
      pyFormatAux fuel l part = some l := by
  intro l
  induction l with
  | nil =>
    intro fuel _ _
    cases fuel with
    | zero => rfl
    | succ n => rfl
  | cons c cs ih =>
    intro fuel hbf hlen
    obtain ⟨⟨hc1, hc2⟩, hcs⟩ := (braceFree_cons c cs).mp hbf
    cases fuel with
    | zero => simp at hlen
    | succ n =>
      simp only [pyFormatAux]
      rw [if_neg hc1, if_neg hc2, ih n hcs (by simp at hlen; omega)]
      rfl

theorem pyFormatAux_render (part : List Char) :
    ∀ (head : List Char) (fuel : Nat) (foot : List Char),
      braceFree head = true → braceFree foot = true →
      head.length + (9 + foot.length) ≤ fuel →
      pyFormatAux fuel (head ++ (contentPlaceholder.data ++ foot)) part =
        some (head ++ (part ++ foot)) := by
  intro head
  induction head with
  | nil =>
    intro fuel foot _ hf hfuel
    simp only [List.nil_append]
    have hconc : contentPlaceholder.data ++ foot =
        '\x7b' :: ("content".data ++ ('\x7d' :: foot)) := rfl
    rw [hconc]
    cases fuel with
    | zero => simp at hfuel
    | succ n =>
      have hred : pyFormatAux (n + 1) ('\x7b' :: ("content".data ++ ('\x7d' :: foot))) part
          = (pyFormatAux n foot part).map fun r => part ++ r := rfl
      rw [hred, pyFormatAux_clean part foot n hf (by simp at hfuel; omega)]
      rfl
  | cons c head' ih =>
    intro fuel foot hh hf hfuel
    obtain ⟨⟨hc1, hc2⟩, hh'⟩ := (braceFree_cons c head').mp hh
    cases fuel with
    | zero => simp at hfuel
    | succ n =>
      show pyFormatAux (n + 1) (c :: (head' ++ (contentPlaceholder.data ++ foot))) part =
        some (c :: (head' ++ (part ++ foot)))
      simp only [pyFormatAux]
      rw [if_neg hc1, if_neg hc2,
        ih n foot hh' hf (by simp only [List.length_cons] at hfuel; omega)]
      rfl

theorem pyFormatAux_field (n : Nat) (rest part : List Char) :
    pyFormatAux (n + 1) ('\x7b' :: ("content".data ++ ('\x7d' :: rest))) part =
      (pyFormatAux n rest part).map fun r => part ++ r := rfl

theorem pyFormatAux_skip_clean (part : List Char) :
    ∀ a : List Char, braceFree a = true →
      ∀ (fuel : Nat) (rest : List Char), a.length + rest.length ≤ fuel →
        pyFormatAux fuel (a ++ rest) part =
          (pyFormatAux (fuel - a.length) rest part).map fun r => a ++ r := by
  intro a
  induction a with
  | nil =>
    intro _ fuel rest _
    simp only [List.nil_append, List.length_nil, Nat.sub_zero]
    cases pyFormatAux fuel rest part <;> simp
  | cons c a' ih =>
    intro hbf fuel rest hlen
    obtain ⟨⟨hc1, hc2⟩, ha'⟩ := (braceFree_cons c a').mp hbf
    cases fuel with
    | zero => simp at hlen
    | succ n =>
      show pyFormatAux (n + 1) (c :: (a' ++ rest)) part = _
      simp only [pyFormatAux]
      rw [if_neg hc1, if_neg hc2,
        ih ha' n rest (by simp only [List.length_cons] at hlen; omega), Option.map_map]
      have harith : n + 1 - (c :: a').length = n - a'.length := by
        simp only [List.length_cons]
        omega
      rw [harith]
      congr 1

theorem chunkListAux_nil (fuel m : Nat) : chunkListAux fuel m [] = [] := by
  cases fuel with
  | zero => rfl
  | succ n => rfl

theorem chunkList_single (m : Nat) (l : List Char) (h1 : l ≠ []) (h2 : l.length ≤ m) :
    chunkList m l = [l] := by
  cases l with
  | nil => exact absurd rfl h1
  | cons c cs =>
    unfold chunkList
    rw [List.length_cons, chunkListAux_cons, List.take_of_length_le h2,
      List.drop_eq_nil_of_le h2, chunkListAux_nil]

theorem pyFormat_double_subst (part : List Char) :
    pyFormat (message_template "{content}" "L").data part =
      some ("<b>📰 ".data ++ (part ++ ("</b>\n\n".data ++ (part ++
        "\n\n<a href=\x27L\x27>🔗 Источник</a>".data)))) := by
  have hdata : (message_template "{content}" "L").data =
      "<b>📰 ".data ++ ('\x7b' :: ("content".data ++ ('\x7d' ::
        ("</b>\n\n".data ++ ('\x7b' :: ("content".data ++ ('\x7d' ::
          "\n\n<a href=\x27L\x27>🔗 Источник</a>".data))))))) := rfl
  have hlen : (message_template "{content}" "L").data.length = 57 := rfl
  unfold pyFormat
  rw [hlen, hdata]
  rw [pyFormatAux_skip_clean part "<b>📰 ".data (by decide) 57 _ (by decide)]
  rw [show (57 : Nat) - ("<b>📰 ".data).length = 51 + 1 from rfl]
  rw [pyFormatAux_field]
  rw [pyFormatAux_skip_clean part "</b>\n\n".data (by decide) 51 _ (by decide)]
  rw [show (51 : Nat) - ("</b>\n\n".data).length = 44 + 1 from rfl]
  rw [pyFormatAux_field]
  rw [pyFormatAux_clean part "\n\n<a href=\x27L\x27>🔗 Источник</a>".data 44 (by decide)
    (by decide)]
  rfl

theorem braceFree_msgHead (t : String) (ht : braceFree t.data = true) :
    braceFree (msgHead t).data = true := by
  unfold msgHead
  rw [data_append, data_append]
  rw [braceFree_append, braceFree_append]
  exact ⟨⟨by decide, ht⟩, by decide⟩

theorem braceFree_msgFoot (l : String) (hl : braceFree l.data = true) :
    braceFree (msgFoot l).data = true := by
  unfold msgFoot
  rw [data_append, data_append]
  rw [braceFree_append, braceFree_append]
  exact ⟨⟨by decide, hl⟩, by decide⟩

theorem mk_render (t l : String) (p : List Char) :
    String.mk ((msgHead t).data ++ (p ++ (msgFoot l).data)) =
      msgHead t ++ String.mk p ++ msgFoot l := by
  have h : msgHead t ++ String.mk p ++ msgFoot l =
      String.mk (((msgHead t).data ++ p) ++ (msgFoot l).data) := by
    rw [← mk_append, ← mk_append]
  rw [h, List.append_assoc]

theorem renderOne_clean (title link : String) (part : List Char)
    (ht : braceFree title.data = true) (hl : braceFree link.data = true) :
    pyFormat (message_template title link).data part =
      some ((msgHead title).data ++ (part ++ (msgFoot link).data)) := by
  have hdata : (message_template title link).data =
      (msgHead title).data ++ (contentPlaceholder.data ++ (msgFoot link).data) := by
    unfold message_template
    rw [data_append, data_append, List.append_assoc]
  unfold pyFormat
  rw [hdata]
  apply pyFormatAux_render part (msgHead title).data _ (msgFoot link).data
    (braceFree_msgHead title ht) (braceFree_msgFoot link hl)
  rw [List.length_append, List.length_append]
  have h9 : contentPlaceholder.data.length = 9 := rfl
  omega

theorem renderAll_clean (title link : String)
    (ht : braceFree title.data = true) (hl : braceFree link.data = true) :
    ∀ parts : List (List Char),
      renderAll (message_template title link).data parts =
        some (parts.map fun part => msgHead title ++ String.mk part ++ msgFoot link) := by
  intro parts
  induction parts with
  | nil => rfl
  | cons p ps ih =>
    simp only [renderAll, renderOne_clean title link p ht hl, ih, List.map_cons]
    rw [mk_render]

theorem format_message_clean (title content link : String)
    (ht : braceFree title.data = true) (hl : braceFree link.data = true)
    (hpos : 0 < maxContentLength title link) :
    format_message title content link =
      some ((chunkList (maxContentLength title link).toNat content.data).map
        fun part => msgHead title ++ String.mk part ++ msgFoot link) := by
  rw [format_message_of_pos title content link hpos, renderAll_clean title link ht hl]

/-! ### Helper lemmas on the sent-articles store -/

theorem processArticle_eq_of (page : String → ParseOutcome) (send : String → Bool)
    (file : List String) (a : Article) (msgs : List String)
    (hc : parse_article_content (page a.link) ≠ "")
    (hf : format_message a.title (parse_article_content (page a.link)) a.link = some msgs) :
    processArticle page send file a = some (file ++ [a.link], msgs.map send) := by
  unfold processArticle
  rw [if_neg hc, hf]

/-- C1: for every article whose extracted content is nonempty (and whose
chunk formatting returns), once every formatted chunk has been handed to the
delivery oracle the article link is appended to the sent-articles file; the
appended file does not mention the delivery results at all, so no delivery
failure can prevent the mark-sent append. -/
theorem claim_C1_mark_sent_regardless (page : String → ParseOutcome)
    (send : String → Bool) (file : List String) (a : Article) (msgs : List String)
    (hc : parse_article_content (page a.link) ≠ "")
    (hf : format_message a.title (parse_article_content (page a.link)) a.link = some msgs) :
    processArticle page send file a = some (file ++ [a.link], msgs.map send) :=
  processArticle_eq_of page send file a msgs hc hf

theorem claim_C1_witness :
    processArticle (fun _ => ParseOutcome.container ["c"]) (fun _ => false) [] ⟨"T", "L"⟩ =
      some (["L"], [false]) := by
  simpa using claim_C1_mark_sent_regardless (fun _ => ParseOutcome.container ["c"])
    (fun _ => false) [] ⟨"T", "L"⟩
    ["<b>📰 T</b>\n\nc\n\n<a href=\x27L\x27>🔗 Источник</a>"] (by decide) (by decide)

/-- C3 counterexample: a title equal to the content placeholder injects a
second replacement field into the template; str.format substitutes the
slice at both occurrences, so with content of length 2029 the single
returned message has length 4097, one more than MAX_MESSAGE_LENGTH,
refuting the universal length bound. -/
theorem claim_C3_counterexample :
    format_message "{content}" contentLen2029 "L" =
      some [String.mk ("<b>📰 ".data ++ (contentLen2029.data ++ ("</b>\n\n".data ++
        (contentLen2029.data ++ "\n\n<a href=\x27L\x27>🔗 Источник</a>".data))))] ∧
    (String.mk ("<b>📰 ".data ++ (contentLen2029.data ++ ("</b>\n\n".data ++
        (contentLen2029.data ++ "\n\n<a href=\x27L\x27>🔗 Источник</a>".data))))).length
      = 4097 ∧
    MAX_MESSAGE_LENGTH < 4097 := by
  have h1 : contentLen2029.data.length = 2029 := by
    show (List.replicate 2029 'c').length = 2029
    exact List.length_replicate 2029 'c'
  refine ⟨?_, ?_, by decide⟩
  · have hpos : 0 < maxContentLength "{content}" "L" := by decide
    rw [format_message_of_pos _ _ _ hpos]
    have hchunk : chunkList (maxContentLength "{content}" "L").toNat contentLen2029.data
        = [contentLen2029.data] := by
      apply chunkList_single
      · intro h
        rw [h] at h1
        simp at h1
      · rw [h1]
        decide
    rw [hchunk]
    simp only [renderAll, pyFormat_double_subst]
  · rw [length_mk]
    simp only [List.length_append, h1]
    decide

/-- C3 amended: for every title and link free of brace characters, every
message in a list returned by format_message has length at most
MAX_MESSAGE_LENGTH: each content slice has at most the computed capacity,
which is the limit minus the decoration length. -/
theorem claim_C3_amended (title content link : String) (msgs : List String)
    (ht : braceFree title.data = true) (hl : braceFree link.data = true)
    (hm : format_message title content link = some msgs) :
    ∀ msg ∈ msgs, msg.length ≤ MAX_MESSAGE_LENGTH := by
  intro msg hmem
  rcases lt_trichotomy (maxContentLength title link) 0 with hneg | hzero | hpos
  · rw [format_message_of_neg title content link hneg] at hm
    cases hm
    simp at hmem
  · rw [format_message_of_zero title content link hzero] at hm
    cases hm
  · rw [format_message_clean title content link ht hl hpos] at hm
    cases hm
    rcases List.mem_map.mp hmem with ⟨part, hpart, rfl⟩
    have hple : part.length ≤ (maxContentLength title link).toNat :=
      chunkListAux_mem_length _ _ _ _ hpart
    have hgoal : (msgHead title ++ String.mk part ++ msgFoot link).length
        = title.length + part.length + link.length + 38 := by
      show ((msgHead title ++ String.mk part) ++ msgFoot link).data.length = _
      rw [data_append, data_append, List.length_append, List.length_append]
      have h1 : (msgHead title).data.length = title.length + 11 := msgHead_length title
      have h2 : (msgFoot link).data.length = link.length + 27 := msgFoot_length link
      rw [h1, h2]
      show title.length + 11 + part.length + (link.length + 27) = _
      omega
    rw [hgoal]
    have hmcl := maxContentLength_eq title link
    rw [msgHead_length, msgFoot_length] at hmcl
    omega

theorem claim_C3_witness :
    ("<b>📰 T</b>\n\nhi\n\n<a href=\x27L\x27>🔗 Источник</a>" : String).length ≤
      MAX_MESSAGE_LENGTH :=
  claim_C3_amended "T" "hi" "L"
    ["<b>📰 T</b>\n\nhi\n\n<a href=\x27L\x27>🔗 Источник</a>"] (by decide) (by decide)
    (by decide)
    "<b>📰 T</b>\n\nhi\n\n<a href=\x27L\x27>🔗 Источник</a>" (List.mem_singleton.mpr rfl)

/-- C4 counterexample: when the extractor reports no matching content
container it returns the fixed placeholder, but the orchestrator does not
skip the article: the placeholder is nonempty, so the run loop formats it,
delivers it, and appends the link to the sent-articles file. -/
theorem claim_C4_counterexample :
    parse_article_content ParseOutcome.noContainer = "Текст статьи не найден" ∧
    processArticle (fun _ => ParseOutcome.noContainer) (fun _ => true) [] ⟨"T", "L"⟩ =
      some (["L"], [true]) :=
  ⟨rfl, by decide⟩

/-- C4 amended: the extractor returns the fixed not-found placeholder, and
because that placeholder is nonempty the orchestrator treats it as ordinary
content: the placeholder is formatted and delivered and the link is appended
to the sent-articles file (the article is not skipped). -/
theorem claim_C4_amended (page : String → ParseOutcome) (send : String → Bool)
    (file : List String) (a : Article) (msgs : List String)
    (hp : page a.link = ParseOutcome.noContainer)
    (hf : format_message a.title "Текст статьи не найден" a.link = some msgs) :
    parse_article_content (page a.link) = "Текст статьи не найден" ∧
    processArticle page send file a = some (file ++ [a.link], msgs.map send) := by
  have h1 : parse_article_content (page a.link) = "Текст статьи не найден" := by
    rw [hp]
    rfl
  refine ⟨h1, processArticle_eq_of page send file a msgs ?_ ?_⟩
  · rw [h1]
    decide
  · rw [h1]
    exact hf

theorem claim_C4_witness :
    parse_article_content ParseOutcome.noContainer = "Текст статьи не найден" ∧
    processArticle (fun _ => ParseOutcome.noContainer) (fun _ => false) [] ⟨"T", "L"⟩ =
      some (["L"], [false]) := by
  have h := claim_C4_amended (fun _ => ParseOutcome.noContainer) (fun _ => false) [] ⟨"T", "L"⟩
    ["<b>📰 T</b>\n\nТекст статьи не найден\n\n<a href=\x27L\x27>🔗 Источник</a>"]
    rfl (by decide)
  simpa using h

/-- C5: a fetch or parse failure makes the extractor return the empty
string, and an article whose extracted content is empty is skipped: no
message is handed to the delivery oracle and the sent-articles file is left
unchanged, so the article may be retried next cycle. -/
theorem claim_C5_empty_skip (page : String → ParseOutcome) (send : String → Bool)
    (file : List String) (a : Article)
    (h : parse_article_content (page a.link) = "") :
    parse_article_content ParseOutcome.failure = "" ∧
    processArticle page send file a = some (file, []) := by
  refine ⟨rfl, ?_⟩
  unfold processArticle
  rw [if_pos h]

theorem claim_C5_witness :
    parse_article_content ParseOutcome.failure = "" ∧
    processArticle (fun _ => ParseOutcome.failure) (fun _ => true) ["x"] ⟨"T", "L"⟩ =
      some (["x"], []) :=
  claim_C5_empty_skip (fun _ => ParseOutcome.failure) (fun _ => true) ["x"] ⟨"T", "L"⟩ rfl

/-- C6 counterexample: with a title of length 4058 and a link of length 1
the slice capacity is negative, so format_message returns the empty chunk
list even for content of length 10000: it does not return more than one
chunk, and concatenating the stripped slices of the returned chunks yields
the empty string, which does not reconstruct the content. -/
theorem claim_C6_counterexample :
    format_message titleLen4058 contentLen10000 "L" = some [] ∧
    ¬ 1 < ([] : List String).length ∧
    concatStrings (([] : List String).map (stripDecoration titleLen4058 "L")) ≠
      contentLen10000 := by
  refine ⟨?_, by simp, ?_⟩
  · apply format_message_of_neg
    rw [maxContentLength_eq, msgHead_length, msgFoot_length]
    have e2 : titleLen4058.length = 4058 := by
      unfold titleLen4058
      rw [length_mk, List.length_replicate]
    have e : ("L" : String).length = 1 := rfl
    rw [e, e2]
    decide
  · intro hcontra
    have hlen := congrArg String.length hcontra
    simp only [List.map_nil] at hlen
    have h0 : concatStrings ([] : List String) = "" := rfl
    rw [h0] at hlen
    have h1 : ("" : String).length = 0 := rfl
    have h2 : contentLen10000.length = 10000 := by
      unfold contentLen10000
      rw [length_mk, List.length_replicate]
    omega

/-- C6 amended: whenever the computed slice capacity is positive and the
title and link are free of brace characters (so that str.format substitutes
only the template placeholder), concatenating in order the content slices
of the returned chunks, each message stripped of the shared decoration,
reconstructs the original content exactly; and for content of length 10000
more than one chunk is returned. -/
theorem claim_C6_amended (title content link : String) (msgs : List String)
    (ht : braceFree title.data = true) (hl : braceFree link.data = true)
    (hpos : 0 < maxContentLength title link)
    (hm : format_message title content link = some msgs) :
    concatStrings (msgs.map (stripDecoration title link)) = content ∧
    (content.length = 10000 → 1 < msgs.length) := by
  rw [format_message_clean title content link ht hl hpos] at hm
  cases hm
  constructor
  · rw [List.map_map]
    have hfun : (stripDecoration title link ∘
        fun part => msgHead title ++ String.mk part ++ msgFoot link) = String.mk := by
      funext part
      exact stripDecoration_render title link part
    rw [hfun]
    have hm0 : 0 < (maxContentLength title link).toNat := by omega
    exact concat_mk_chunkListAux (maxContentLength title link).toNat hm0
      content.data.length content.data le_rfl
  · intro h10k
    rw [List.length_map]
    apply two_le_chunkList_length
    · omega
    · have hmcl := maxContentLength_eq title link
      rw [msgHead_length, msgFoot_length] at hmcl
      simp only [MAX_MESSAGE_LENGTH] at hmcl
      have hcd : content.data.length = 10000 := h10k
      rw [hcd]
      omega

theorem claim_C6_witness :
    concatStrings (msgsOf10000.map (stripDecoration "T" "L")) = contentLen10000 ∧
    1 < msgsOf10000.length := by
  have hmc : (maxContentLength "T" "L").toNat = 4056 := by decide
  have hm : format_message "T" contentLen10000 "L" = some msgsOf10000 := by
    rw [format_message_clean "T" contentLen10000 "L" (by decide) (by decide) (by decide),
      hmc]
    rfl
  have h := claim_C6_amended "T" contentLen10000 "L" msgsOf10000 (by decide) (by decide)
    (by decide) hm
  refine ⟨h.1, h.2 ?_⟩
  unfold contentLen10000
  rw [length_mk, List.length_replicate]

/-- C7 counterexample: with empty content the Python list comprehension at
news_bot.py line 126 iterates zero times, so format_message returns the
empty list rather than a degenerate one-element slice. -/
theorem claim_C7_counterexample : format_message "T" "" "L" = some [] := by decide

/-- C7 amended: for every title and link whose slice capacity is nonzero,
format_message applied to empty content returns the empty list: it returns
zero messages, not at least one. -/
theorem claim_C7_amended (title link : String)
    (h : maxContentLength title link ≠ 0) :
    format_message title "" link = some [] := by
  rcases lt_or_gt_of_ne h with hneg | hpos
  · exact format_message_of_neg _ _ _ hneg
  · rw [format_message_of_pos _ _ _ hpos]
    rfl

theorem claim_C7_witness : format_message "A" "" "B" = some [] :=
  claim_C7_amended "A" "B" (by decide)

/-- C8: every listed anchor yields the article with the stripped text as
title and the normalized href as link; a href that does not begin with the
recognized scheme text resolves to RBC_URL concatenated with the href
stripped of leading slashes, and an already absolute href is unchanged. -/
theorem claim_C8_link_normalization (anchors : List Anchor) (anc : Anchor)
    (hmem : anc ∈ anchors) :
    (⟨stripText anc.text, normalizeLink anc.href⟩ : Article) ∈ fetch_articles anchors ∧
    (startswith_http anc.href = false →
      normalizeLink anc.href = RBC_URL ++ lstripSlashes anc.href) ∧
    (startswith_http anc.href = true → normalizeLink anc.href = anc.href) := by
  refine ⟨List.mem_map_of_mem _ hmem, ?_, ?_⟩
  · intro h
    simp [normalizeLink, h]
  · intro h
    simp [normalizeLink, h]

theorem claim_C8_witness :
    (⟨"t", "https://www.rbc.ru/economy/news1"⟩ : Article) ∈
      fetch_articles [⟨"t", "/economy/news1"⟩] ∧
    normalizeLink "https://www.rbc.ru/economy/news1" = "https://www.rbc.ru/economy/news1" := by
  have h := claim_C8_link_normalization [⟨"t", "/economy/news1"⟩] ⟨"t", "/economy/news1"⟩
    (List.mem_singleton.mpr rfl)
  have habs := claim_C8_link_normalization [⟨"t", "https://www.rbc.ru/economy/news1"⟩]
    ⟨"t", "https://www.rbc.ru/economy/news1"⟩ (List.mem_singleton.mpr rfl)
  constructor
  · have h1 := h.1
    have e1 : stripText ((⟨"t", "/economy/news1"⟩ : Anchor).text) = "t" := by decide
    have e2 : normalizeLink ((⟨"t", "/economy/news1"⟩ : Anchor).href) =
        "https://www.rbc.ru/economy/news1" := by decide
    rw [e1, e2] at h1
    exact h1
  · exact habs.2.2 (by decide)

/-- C9: when the homepage listing contains the same not-yet-sent link twice
in one cycle, the filter, evaluated once against the snapshot loaded at
cycle start, keeps both occurrences: both are passed to the extractor, both
chunk lists are delivered, and the link is appended to the sent-articles
file twice, even though it was appended after the first occurrence. -/
theorem claim_C9_duplicate_in_cycle (page : String → ParseOutcome) (send : String → Bool)
    (file : List String) (a : Article) (msgs : List String)
    (h0 : a.link ∉ file)
    (hc : parse_article_content (page a.link) ≠ "")
    (hf : format_message a.title (parse_article_content (page a.link)) a.link = some msgs) :
    newArticles [a, a] file = [a, a] ∧
    cycleExtracted [a, a] file = [a.link, a.link] ∧
    processArticles page send [a, a] file =
      some (file ++ [a.link] ++ [a.link], msgs.map send ++ msgs.map send) := by
  have hn : newArticles [a, a] file = [a, a] := by
    simp [newArticles, h0]
  have h1 := processArticle_eq_of page send file a msgs hc hf
  have h2 := processArticle_eq_of page send (file ++ [a.link]) a msgs hc hf
  refine ⟨hn, by simp [cycleExtracted, hn], ?_⟩
  simp [processArticles, h1, h2]

theorem claim_C9_witness :
    newArticles [⟨"T", "L"⟩, ⟨"T", "L"⟩] [] = [⟨"T", "L"⟩, ⟨"T", "L"⟩] ∧
    cycleExtracted [⟨"T", "L"⟩, ⟨"T", "L"⟩] [] = ["L", "L"] ∧
    processArticles (fun _ => ParseOutcome.container ["c"]) (fun _ => true)
      [⟨"T", "L"⟩, ⟨"T", "L"⟩] [] = some (["L", "L"], [true, true]) := by
  have h := claim_C9_duplicate_in_cycle (fun _ => ParseOutcome.container ["c"]) (fun _ => true)
    [] ⟨"T", "L"⟩ ["<b>📰 T</b>\n\nc\n\n<a href=\x27L\x27>🔗 Источник</a>"]
    (by simp) (by decide) (by decide)
  refine ⟨h.1, by simpa using h.2.1, by simpa using h.2.2⟩

/-- C10: when the rendered decoration (head plus foot, the template minus
the placeholder) is exactly MAX_MESSAGE_LENGTH long the computed capacity
is zero and the slicing raises (none); when it is longer the capacity is
negative and format_message returns the empty list, and the orchestrator
then delivers zero messages yet still appends the link to the sent-articles
file. -/
theorem claim_C10_capacity_degenerate (title content link content2 : String)
    (page : String → ParseOutcome) (send : String → Bool) (file : List String) (a : Article)
    (hz : (msgHead title).length + (msgFoot link).length = MAX_MESSAGE_LENGTH)
    (hneg : MAX_MESSAGE_LENGTH < (msgHead a.title).length + (msgFoot a.link).length)
    (hc : parse_article_content (page a.link) ≠ "") :
    format_message title content link = none ∧
    format_message a.title content2 a.link = some [] ∧
    processArticle page send file a = some (file ++ [a.link], []) := by
  have hmz : maxContentLength title link = 0 := by
    rw [maxContentLength_eq]
    omega
  have hmn : maxContentLength a.title a.link < 0 := by
    rw [maxContentLength_eq]
    omega
  refine ⟨format_message_of_zero _ _ _ hmz, format_message_of_neg _ _ _ hmn, ?_⟩
  have h := processArticle_eq_of page send file a [] hc (format_message_of_neg _ _ _ hmn)
  simpa using h

theorem claim_C10_witness :
    format_message titleLen4057 "x" "L" = none ∧
    format_message titleLen4058 "y" "L" = some [] ∧
    processArticle (fun _ => ParseOutcome.container ["c"]) (fun _ => true) []
      ⟨titleLen4058, "L"⟩ = some (["L"], []) := by
  have h := claim_C10_capacity_degenerate titleLen4057 "x" "L" "y"
    (fun _ => ParseOutcome.container ["c"]) (fun _ => true) [] ⟨titleLen4058, "L"⟩
    ?hz ?hneg (by decide)
  · exact ⟨h.1, h.2.1, by simpa using h.2.2⟩
  case hz =>
    rw [msgHead_length, msgFoot_length]
    have e : ("L" : String).length = 1 := rfl
    have e2 : titleLen4057.length = 4057 := by
      unfold titleLen4057
      rw [length_mk, List.length_replicate]
    rw [e, e2]
    decide
  case hneg =>
    have ht : (⟨titleLen4058, "L"⟩ : Article).title = titleLen4058 := rfl
    have hl : (⟨titleLen4058, "L"⟩ : Article).link = "L" := rfl
    rw [ht, hl, msgHead_length, msgFoot_length]
    have e : ("L" : String).length = 1 := rfl
    have e2 : titleLen4058.length = 4058 := by
      unfold titleLen4058
      rw [length_mk, List.length_replicate]
    rw [e, e2]
    decide
